import Mathlib

/-!
Verification of the hackathon_finder core: a shallow embedding of the
data-normalization pipeline (`src/utils/data_normalizer.py`), the SQLite
persistence layer (`src/database/db_manager.py`), the waterfall strategy
chain (`src/scrapers/base_scraper.py`) and the batch orchestrator
(`src/main.py`), followed by theorems about the embedded definitions.

Python values flowing through the raw payloads are modelled by the
inductive `PyVal` (None, str, int, list); machine-level Python semantics
(truthiness, `str()`, `or`, iteration, exceptions) are embedded
explicitly.  Fallible Python code is modelled with `Except String`.
-/

set_option maxRecDepth 8000

/-- A Python value as it occurs in raw scraped payloads: `None`, a string,
an integer, or a list.  (Floats, dicts and other types do not occur in the
payload positions the verified code touches.) -/
inductive PyVal where
  | none
  | str (s : String)
  | int (n : Int)
  | list (l : List PyVal)

mutual
/-- Boolean equality on `PyVal` (Python `==` restricted to same-typed
values; cross-type comparisons are `False`, as in Python for these
types). -/
def PyVal.beq : PyVal → PyVal → Bool
  | .none, .none => true
  | .str a, .str b => a == b
  | .int a, .int b => a == b
  | .list a, .list b => PyVal.beqList a b
  | _, _ => false

/-- Element-wise `PyVal.beq` on lists. -/
def PyVal.beqList : List PyVal → List PyVal → Bool
  | [], [] => true
  | a :: as, b :: bs => PyVal.beq a b && PyVal.beqList as bs
  | _, _ => false
end

instance : BEq PyVal := ⟨PyVal.beq⟩

/-- Python truthiness: `None`, `""`, `0` and `[]` are falsy. -/
def PyVal.truthy : PyVal → Bool
  | .none => false
  | .str s => s ≠ ""
  | .int n => n ≠ 0
  | .list l => ¬l.isEmpty

/-- Whether a `PyVal` is a Python `str`. -/
def PyVal.isStr : PyVal → Bool
  | .str _ => true
  | _ => false

/-- Whether a `PyVal` is a Python `list`. -/
def PyVal.isList : PyVal → Bool
  | .list _ => true
  | _ => false

mutual
/-- Python `repr` restricted to `PyVal` (strings rendered with single
quotes; Python's alternate quote selection for strings containing quotes
is not reproduced, no such string occurs in the verified inputs). -/
def PyVal.reprPy : PyVal → String
  | .none => "None"
  | .str s => "'" ++ s ++ "'"
  | .int n => toString n
  | .list l => "[" ++ ", ".intercalate (PyVal.reprList l) ++ "]"

/-- `repr` of each element of a list of Python values. -/
def PyVal.reprList : List PyVal → List String
  | [] => []
  | v :: rest => PyVal.reprPy v :: PyVal.reprList rest
end

/-- Python `str()` on a `PyVal` (also the semantics of f-string
interpolation of the value). -/
def pyStr : PyVal → String
  | .str s => s
  | v => v.reprPy

/-- Python `a or b`: `a` if `a` is truthy, else `b`. -/
def pyOr (a b : PyVal) : PyVal :=
  if a.truthy then a else b

/-- Python `iter(v)` as used in `for x in v`: lists yield their elements,
strings yield their characters as one-character strings; `None` and
integers raise `TypeError`. -/
def pyIter : PyVal → Except String (List PyVal)
  | .list l => .ok l
  | .str s => .ok (s.data.map (fun c => PyVal.str (String.mk [c])))
  | _ => .error "TypeError"

/-- A raw scraped payload: a Python dict modelled as an association list
(first binding wins, mirroring unique dict keys). -/
def RawData := List (String × PyVal)

/-- Python `d.get(key, default)`. -/
def dictGet (d : RawData) (k : String) (dflt : PyVal) : PyVal :=
  match List.lookup k d with
  | some v => v
  | Option.none => dflt

/-- Python `d.get(key)` (default `None`). -/
def dictGetN (d : RawData) (k : String) : PyVal :=
  dictGet d k PyVal.none

/-! ### Character/string utilities mirroring Python `str` methods -/

/-- Python whitespace for `str.strip` / `\s` (ASCII fragment; the unicode
whitespace classes do not occur in the verified inputs). -/
def isPySpace (c : Char) : Bool :=
  c = ' ' ∨ c = '\t' ∨ c = '\n' ∨ c = '\r' ∨ c = Char.ofNat 11 ∨ c = Char.ofNat 12

/-- ASCII lower-casing of one character. -/
def asciiLowerChar (c : Char) : Char :=
  if 'A' ≤ c ∧ c ≤ 'Z' then Char.ofNat (c.toNat + 32) else c

/-- ASCII upper-casing of one character. -/
def asciiUpperChar (c : Char) : Char :=
  if 'a' ≤ c ∧ c ≤ 'z' then Char.ofNat (c.toNat - 32) else c

/-- Python `str.lower()` (ASCII fragment). -/
def asciiLower (s : String) : String :=
  String.mk (s.data.map asciiLowerChar)

/-- Python `str.strip()`. -/
def pyStrip (s : String) : String :=
  String.mk (((s.data.dropWhile isPySpace).reverse.dropWhile isPySpace).reverse)

/-- Python `str.rstrip(chars)` for a character predicate. -/
def pyRstrip (p : Char → Bool) (s : String) : String :=
  String.mk ((s.data.reverse.dropWhile p).reverse)

/-- One step of `re.sub(r'\s+', ' ', ·)`: each maximal whitespace run
becomes a single space.  The flag records whether the previous character
was part of a whitespace run. -/
def squeezeWsGo : Bool → List Char → List Char
  | _, [] => []
  | prevWs, c :: rest =>
    if isPySpace c then
      if prevWs then squeezeWsGo true rest else ' ' :: squeezeWsGo true rest
    else c :: squeezeWsGo false rest

/-- `re.sub(r'\s+', ' ', s)`. -/
def squeezeWs (s : String) : String :=
  String.mk (squeezeWsGo false s.data)

/-- Substring containment on character lists (Python `needle in hay`). -/
def listContainsSub (needle hay : List Char) : Bool :=
  match hay with
  | [] => needle.isEmpty
  | _ :: rest => needle.isPrefixOf hay || listContainsSub needle rest

/-- Python `needle in hay` for strings (substring test). -/
def strIn (needle hay : String) : Bool :=
  listContainsSub needle.data hay.data

/-- `re.split(r'[,;|]', s)`: split at every comma/semicolon/pipe, keeping
empty pieces. -/
def splitDelimsGo : List Char → List Char → List String
  | acc, [] => [String.mk acc.reverse]
  | acc, c :: rest =>
    if c = ',' ∨ c = ';' ∨ c = '|' then
      String.mk acc.reverse :: splitDelimsGo [] rest
    else splitDelimsGo (c :: acc) rest

/-- `re.split(r'[,;|]', s)`. -/
def splitDelims (s : String) : List String :=
  splitDelimsGo [] s.data

/-- Python `str.title()` (ASCII fragment): a letter that follows a
non-letter is upper-cased, other letters are lower-cased. -/
def pyTitleGo : Bool → List Char → List Char
  | _, [] => []
  | prevAlpha, c :: rest =>
    let c' := if c.isAlpha then
        (if prevAlpha then asciiLowerChar c else asciiUpperChar c)
      else c
    c' :: pyTitleGo c.isAlpha rest

/-- Python `str.title()` (ASCII fragment). -/
def pyTitle (s : String) : String :=
  String.mk (pyTitleGo false s.data)

/-! ### Calendar dates and the mini `strptime` used by `_parse_date` and
`_determine_status` -/

/-- A calendar date (`datetime.date`). -/
structure Date where
  y : Nat
  m : Nat
  d : Nat
deriving DecidableEq, Repr

/-- Python `date <` (lexicographic on year, month, day). -/
def dateLt (a b : Date) : Bool :=
  decide (a.y < b.y ∨ (a.y = b.y ∧ (a.m < b.m ∨ (a.m = b.m ∧ a.d < b.d))))

/-- Python `date <=` (lexicographic on year, month, day). -/
def dateLe (a b : Date) : Bool :=
  decide (a.y < b.y ∨ (a.y = b.y ∧ (a.m < b.m ∨ (a.m = b.m ∧ a.d ≤ b.d))))

/-- Gregorian leap-year rule (as in `datetime`). -/
def isLeap (y : Nat) : Bool :=
  (y % 4 = 0 ∧ y % 100 ≠ 0) ∨ y % 400 = 0

/-- Days in a month (as validated by the `datetime` constructor). -/
def daysInMonth (y m : Nat) : Nat :=
  if m = 2 then (if isLeap y then 29 else 28)
  else if m = 4 ∨ m = 6 ∨ m = 9 ∨ m = 11 then 30
  else 31

/-- The `datetime` constructor's validity check on a (year, month, day)
triple (`MINYEAR` is 1; the `%Y` directive caps the year at 9999). -/
def dayOk (y m d : Nat) : Bool :=
  1 ≤ y ∧ 1 ≤ m ∧ m ≤ 12 ∧ 1 ≤ d ∧ d ≤ daysInMonth y m

/-- Zero-pad a number to `n` digits (`strftime` field padding). -/
def padNum (n : Nat) (v : Nat) : String :=
  let s := toString v
  String.mk (List.replicate (n - s.length) '0') ++ s

/-- `date.strftime("%Y-%m-%d")`. -/
def isoFormat (dt : Date) : String :=
  padNum 4 dt.y ++ "-" ++ padNum 2 dt.m ++ "-" ++ padNum 2 dt.d

/-- `datetime.now()` as far as `_parse_date` observes it: the current
date, and whether the clock is strictly past midnight (a year-less parsed
date carries time 00:00:00, so `parsed < now` can depend on it). -/
structure PyNow where
  today : Date
  afterMidnight : Bool

/-- A partially-filled (year, month, day) as accumulated by `strptime`
directives. -/
structure Ymd where
  y : Option Nat
  m : Option Nat
  d : Option Nat

/-- A `strptime` format token: a literal character, a whitespace run
(a whitespace character in the format matches `\s+`), or one of the
directives `%Y`, `%m`, `%d`, `%B`, `%b`. -/
inductive FmtTok where
  | lit (c : Char)
  | ws
  | year
  | mon2
  | day2
  | monFull
  | monAbbr

/-- Numeric value of a decimal digit character. -/
def digitVal (c : Char) : Nat := c.toNat - 48

/-- `%Y`: exactly four digits (CPython's `_strptime` regex `\d\d\d\d`). -/
def matchYear : List Char → Option (Nat × List Char)
  | a :: b :: c :: d :: rest =>
    if a.isDigit ∧ b.isDigit ∧ c.isDigit ∧ d.isDigit then
      some (digitVal a * 1000 + digitVal b * 100 + digitVal c * 10 + digitVal d, rest)
    else Option.none
  | _ => Option.none

/-- `%m`: CPython's alternation `1[0-2]|0[1-9]|[1-9]`, tried in that
order. -/
def matchMon2 : List Char → Option (Nat × List Char)
  | a :: b :: rest =>
    if a = '1' ∧ '0' ≤ b ∧ b ≤ '2' then some (10 + digitVal b, rest)
    else if a = '0' ∧ '1' ≤ b ∧ b ≤ '9' then some (digitVal b, rest)
    else if '1' ≤ a ∧ a ≤ '9' then some (digitVal a, b :: rest)
    else Option.none
  | a :: rest =>
    if '1' ≤ a ∧ a ≤ '9' then some (digitVal a, rest) else Option.none
  | [] => Option.none

/-- `%d`: CPython's alternation `3[01]|[12]\d|0[1-9]|[1-9]`, tried in
that order. -/
def matchDay2 : List Char → Option (Nat × List Char)
  | a :: b :: rest =>
    if a = '3' ∧ '0' ≤ b ∧ b ≤ '1' then some (30 + digitVal b, rest)
    else if ('1' ≤ a ∧ a ≤ '2') ∧ b.isDigit then some (digitVal a * 10 + digitVal b, rest)
    else if a = '0' ∧ '1' ≤ b ∧ b ≤ '9' then some (digitVal b, rest)
    else if '1' ≤ a ∧ a ≤ '9' then some (digitVal a, b :: rest)
    else Option.none
  | a :: rest =>
    if '1' ≤ a ∧ a ≤ '9' then some (digitVal a, rest) else Option.none
  | [] => Option.none

/-- Full month names, lower-cased (no name is a prefix of another, so the
alternation order of `_strptime` is immaterial). -/
def monthNamesFull : List String :=
  ["january", "february", "march", "april", "may", "june", "july",
   "august", "september", "october", "november", "december"]

/-- Abbreviated month names, lower-cased. -/
def monthNamesAbbr : List String :=
  ["jan", "feb", "mar", "apr", "may", "jun", "jul", "aug", "sep", "oct", "nov", "dec"]

/-- Match a month name (case-insensitively, as a prefix — `strptime` adds
no word boundary) returning its 1-based number. -/
def matchMonNameGo : Nat → List String → List Char → Option (Nat × List Char)
  | _, [], _ => Option.none
  | i, n :: rest, cs =>
    if n.data.isPrefixOf (cs.map asciiLowerChar) then some (i, cs.drop n.length)
    else matchMonNameGo (i + 1) rest cs

/-- Consume the tokens of one format against the input; `strptime` fails
if input remains after the format is exhausted. -/
def matchToks : List FmtTok → Ymd → List Char → Option Ymd
  | [], acc, cs => if cs.isEmpty then some acc else Option.none
  | t :: ts, acc, cs =>
    match t with
    | .lit c =>
      match cs with
      | c' :: rest => if c' = c then matchToks ts acc rest else Option.none
      | [] => Option.none
    | .ws =>
      let sp := cs.takeWhile isPySpace
      if sp.isEmpty then Option.none else matchToks ts acc (cs.drop sp.length)
    | .year =>
      match matchYear cs with
      | some (y, rest) => matchToks ts { acc with y := some y } rest
      | Option.none => Option.none
    | .mon2 =>
      match matchMon2 cs with
      | some (m, rest) => matchToks ts { acc with m := some m } rest
      | Option.none => Option.none
    | .day2 =>
      match matchDay2 cs with
      | some (d, rest) => matchToks ts { acc with d := some d } rest
      | Option.none => Option.none
    | .monFull =>
      match matchMonNameGo 1 monthNamesFull cs with
      | some (m, rest) => matchToks ts { acc with m := some m } rest
      | Option.none => Option.none
    | .monAbbr =>
      match matchMonNameGo 1 monthNamesAbbr cs with
      | some (m, rest) => matchToks ts { acc with m := some m } rest
      | Option.none => Option.none

/-- The token lists of `DataNormalizer.date_formats`, in source order. -/
def dateFormats : List (List FmtTok) :=
  [[.year, .lit '-', .mon2, .lit '-', .day2],
   [.monFull, .ws, .day2, .lit ',', .ws, .year],
   [.monAbbr, .ws, .day2, .lit ',', .ws, .year],
   [.day2, .ws, .monFull, .ws, .year],
   [.day2, .ws, .monAbbr, .ws, .year],
   [.mon2, .lit '/', .day2, .lit '/', .year],
   [.day2, .lit '/', .mon2, .lit '/', .year],
   [.year, .lit '/', .mon2, .lit '/', .day2],
   [.monFull, .ws, .day2],
   [.monAbbr, .ws, .day2]]

/-- One `datetime.strptime(date_str, fmt)` attempt followed by the
year-less adjustment of `_parse_date` (missing year defaults to 1900 at
validation; then the year is replaced by the current one and, if the date
is in the past relative to `datetime.now()`, rolled forward one year). -/
def tryFormat (now : PyNow) (toks : List FmtTok) (cs : List Char) : Option Date :=
  match matchToks toks ⟨Option.none, Option.none, Option.none⟩ cs with
  | Option.none => Option.none
  | some acc =>
    let m := acc.m.getD 1
    let d := acc.d.getD 1
    match acc.y with
    | some y => if dayOk y m d then some ⟨y, m, d⟩ else Option.none
    | Option.none =>
      if dayOk 1900 m d then
        let p : Date := ⟨now.today.y, m, d⟩
        if dateLt p now.today || (decide (p = now.today) && now.afterMidnight) then
          some ⟨now.today.y + 1, m, d⟩
        else some p
      else Option.none

/-- Try the formats in order, returning the first success
(`for fmt in self.date_formats`). -/
def tryFormats (now : PyNow) : List (List FmtTok) → List Char → Option Date
  | [], _ => Option.none
  | f :: fs, cs =>
    match tryFormat now f cs with
    | some dt => some dt
    | Option.none => tryFormats now fs cs

/-- `datetime.strptime(s, "%Y-%m-%d")` (as used by `_determine_status`). -/
def strptimeYmd (s : String) : Option Date :=
  match matchToks [.year, .lit '-', .mon2, .lit '-', .day2]
      ⟨Option.none, Option.none, Option.none⟩ s.data with
  | some acc =>
    match acc.y, acc.m, acc.d with
    | some y, some m, some d => if dayOk y m d then some ⟨y, m, d⟩ else Option.none
    | _, _, _ => Option.none
  | Option.none => Option.none

/-! The regex fallback of `_parse_date`:
`re.search(r'(\w+\s+\d+)\s*[-–]\s*(\w+\s+\d+),?\s*(\d{4})?', date_str)`.
The pattern is deterministic — every greedy choice is forced, so a
backtracking-free scanner is faithful. -/

/-- ASCII `\w`. -/
def isWordChar (c : Char) : Bool := c.isAlphanum || c = '_'

/-- Match `\w+\s+\d+` at the head, returning the matched text and the
rest. -/
def matchWordNum (cs : List Char) : Option (List Char × List Char) :=
  let w := cs.takeWhile isWordChar
  if w.isEmpty then Option.none else
  let r1 := cs.drop w.length
  let sp := r1.takeWhile isPySpace
  if sp.isEmpty then Option.none else
  let r2 := r1.drop sp.length
  let dg := r2.takeWhile Char.isDigit
  if dg.isEmpty then Option.none else
  some (w ++ sp ++ dg, r2.drop dg.length)

/-- Match the whole range pattern at the head: returns group 1 (the first
"Month day") and group 3 (the optional 4-digit year). -/
def matchRangeAt (cs : List Char) : Option (List Char × Option (List Char)) :=
  match matchWordNum cs with
  | Option.none => Option.none
  | some (g1, r) =>
    match r.dropWhile isPySpace with
    | [] => Option.none
    | c :: r' =>
      if c = '-' ∨ c = '–' then
        match matchWordNum (r'.dropWhile isPySpace) with
        | Option.none => Option.none
        | some (_, r3) =>
          let r4 := match r3 with
            | ',' :: t => t
            | t => t
          let r5 := r4.dropWhile isPySpace
          let year := match r5 with
            | a :: b :: c' :: d :: _ =>
              if a.isDigit ∧ b.isDigit ∧ c'.isDigit ∧ d.isDigit then some [a, b, c', d]
              else Option.none
            | _ => Option.none
          some (g1, year)
      else Option.none

/-- `re.search`: try the pattern at each start position, leftmost match
wins. -/
def searchRange : List Char → Option (List Char × Option (List Char))
  | [] => Option.none
  | c :: rest =>
    match matchRangeAt (c :: rest) with
    | some r => some r
    | Option.none => searchRange rest

/-- The range fallback of `_parse_date`: on a match, parse
`f"{month_day}, {year}"` with `"%b %d, %Y"` (year defaulting to the
current one). -/
def rangeFallback (now : PyNow) (cs : List Char) : Option String :=
  match searchRange cs with
  | Option.none => Option.none
  | some (g1, yearDigits) =>
    let year := match yearDigits with
      | some ds => String.mk ds
      | Option.none => toString now.today.y
    match tryFormat now [.monAbbr, .ws, .day2, .lit ',', .ws, .year]
        ((String.mk g1) ++ ", " ++ year).data with
    | some dt => some (isoFormat dt)
    | Option.none => Option.none

/-- `DataNormalizer._parse_date`.  (The `isinstance(date_str, (datetime,
date))` branch has no counterpart: `datetime` objects do not occur among
`PyVal` payload values.) -/
def parse_date (now : PyNow) (v : PyVal) : Option String :=
  if ¬v.truthy then Option.none
  else match v with
    | PyVal.str s =>
      let cs := (pyStrip s).data
      match tryFormats now dateFormats cs with
      | some dt => some (isoFormat dt)
      | Option.none => rangeFallback now cs
    | _ => Option.none

/-- Truthiness of an `Optional[str]` (`None` and `""` are falsy). -/
def optStrTruthy : Option String → Bool
  | Option.none => false
  | some s => s ≠ ""

/-- `DataNormalizer._determine_status`. -/
def determine_status (start_date end_date : Option String) (today : Date) : String :=
  if ¬optStrTruthy start_date then "unknown"
  else
    match strptimeYmd (start_date.getD "") with
    | Option.none => "unknown"
    | some start =>
      let endD :=
        if optStrTruthy end_date then
          match strptimeYmd (end_date.getD "") with
          | some e => e
          | Option.none => start
        else start
      if dateLt today start then "upcoming"
      else if dateLe start today && dateLe today endD then "ongoing"
      else "ended"

/-! ### MD5 (RFC 1321), needed because `_generate_id` truncates an MD5
hex digest -/

/-- 32-bit mask. -/
def mask32 : Nat := 4294967295

/-- Addition modulo 2^32. -/
def add32 (a b : Nat) : Nat := (a + b) % 4294967296

/-- Left-rotation of a 32-bit word. -/
def rotl32 (x n : Nat) : Nat :=
  ((x <<< n) ||| (x >>> (32 - n))) % 4294967296

/-- The 64 per-round shift amounts of MD5. -/
def md5Shifts : List Nat :=
  [7, 12, 17, 22, 7, 12, 17, 22, 7, 12, 17, 22, 7, 12, 17, 22,
   5, 9, 14, 20, 5, 9, 14, 20, 5, 9, 14, 20, 5, 9, 14, 20,
   4, 11, 16, 23, 4, 11, 16, 23, 4, 11, 16, 23, 4, 11, 16, 23,
   6, 10, 15, 21, 6, 10, 15, 21, 6, 10, 15, 21, 6, 10, 15, 21]

/-- The 64 sine-derived constants of MD5. -/
def md5K : List Nat :=
  [0xd76aa478, 0xe8c7b756, 0x242070db, 0xc1bdceee,
   0xf57c0faf, 0x4787c62a, 0xa8304613, 0xfd469501,
   0x698098d8, 0x8b44f7af, 0xffff5bb1, 0x895cd7be,
   0x6b901122, 0xfd987193, 0xa679438e, 0x49b40821,
   0xf61e2562, 0xc040b340, 0x265e5a51, 0xe9b6c7aa,
   0xd62f105d, 0x02441453, 0xd8a1e681, 0xe7d3fbc8,
   0x21e1cde6, 0xc33707d6, 0xf4d50d87, 0x455a14ed,
   0xa9e3e905, 0xfcefa3f8, 0x676f02d9, 0x8d2a4c8a,
   0xfffa3942, 0x8771f681, 0x6d9d6122, 0xfde5380c,
   0xa4beea44, 0x4bdecfa9, 0xf6bb4b60, 0xbebfbc70,
   0x289b7ec6, 0xeaa127fa, 0xd4ef3085, 0x04881d05,
   0xd9d4d039, 0xe6db99e5, 0x1fa27cf8, 0xc4ac5665,
   0xf4292244, 0x432aff97, 0xab9423a7, 0xfc93a039,
   0x655b59c3, 0x8f0ccc92, 0xffeff47d, 0x85845dd1,
   0x6fa87e4f, 0xfe2ce6e0, 0xa3014314, 0x4e0811a1,
   0xf7537e82, 0xbd3af235, 0x2ad7d2bb, 0xeb86d391]

/-- Little-endian byte decomposition of `v` into `k` bytes. -/
def leBytes (k v : Nat) : List Nat :=
  (List.range k).map (fun i => (v >>> (8 * i)) &&& 255)

/-- The 16 little-endian 32-bit words of one 64-byte block. -/
def blockWords (buf : List Nat) : List Nat :=
  (List.range 16).map (fun i =>
    buf.getD (4 * i) 0 + buf.getD (4 * i + 1) 0 * 256 +
    buf.getD (4 * i + 2) 0 * 65536 + buf.getD (4 * i + 3) 0 * 16777216)

/-- MD5 state: the four chaining words. -/
structure Md5St where
  a : Nat
  b : Nat
  c : Nat
  d : Nat

/-- One MD5 round `i` on state `(a,b,c,d)` with message words `M`. -/
def md5Round (M : List Nat) (st : Md5St) (i : Nat) : Md5St :=
  let fg : Nat × Nat :=
    if i < 16 then ((st.b &&& st.c) ||| ((mask32 ^^^ st.b) &&& st.d), i)
    else if i < 32 then ((st.d &&& st.b) ||| ((mask32 ^^^ st.d) &&& st.c), (5 * i + 1) % 16)
    else if i < 48 then (st.b ^^^ st.c ^^^ st.d, (3 * i + 5) % 16)
    else (st.c ^^^ (st.b ||| (mask32 ^^^ st.d)), (7 * i) % 16)
  let f := (fg.1 + st.a + md5K.getD i 0 + M.getD fg.2 0) % 4294967296
  ⟨st.d, add32 st.b (rotl32 f (md5Shifts.getD i 0)), st.b, st.c⟩

/-- Process one 64-byte block. -/
def md5Chunk (st : Md5St) (buf : List Nat) : Md5St :=
  let M := blockWords buf
  let r := (List.range 64).foldl (md5Round M) st
  ⟨add32 st.a r.a, add32 st.b r.b, add32 st.c r.c, add32 st.d r.d⟩

/-- Absorb one byte into (buffer, state), processing the buffer whenever
it reaches 64 bytes. -/
def md5Absorb (acc : List Nat × Md5St) (byt : Nat) : List Nat × Md5St :=
  let buf := acc.1 ++ [byt]
  if buf.length = 64 then ([], md5Chunk acc.2 buf) else (buf, acc.2)

/-- MD5 padding: `0x80`, zeros to 56 mod 64, then the bit length as a
64-bit little-endian integer. -/
def md5Pad (msg : List Nat) : List Nat :=
  let len := msg.length
  msg ++ [128] ++ List.replicate ((120 - (len + 1) % 64) % 64) 0 ++
    leBytes 8 ((len * 8) % 18446744073709551616)

/-- Hexadecimal digit characters. -/
def hexDigit (n : Nat) : Char :=
  if n = 0 then '0' else if n = 1 then '1' else if n = 2 then '2'
  else if n = 3 then '3' else if n = 4 then '4' else if n = 5 then '5'
  else if n = 6 then '6' else if n = 7 then '7' else if n = 8 then '8'
  else if n = 9 then '9' else if n = 10 then 'a' else if n = 11 then 'b'
  else if n = 12 then 'c' else if n = 13 then 'd' else if n = 14 then 'e'
  else 'f'

/-- Lowercase hex of a byte list. -/
def bytesToHex (bs : List Nat) : String :=
  String.mk ((bs.map (fun b => [hexDigit (b >>> 4), hexDigit (b &&& 15)])).flatten)

/-- `hashlib.md5(bytes).hexdigest()`. -/
def md5Hex (msg : List Nat) : String :=
  let init : Md5St := ⟨0x67452301, 0xefcdab89, 0x98badcfe, 0x10325476⟩
  let st := ((md5Pad msg).foldl md5Absorb ([], init)).2
  bytesToHex (leBytes 4 st.a ++ leBytes 4 st.b ++ leBytes 4 st.c ++ leBytes 4 st.d)

/-- UTF-8 encoding of one character (`str.encode()`). -/
def utf8Bytes (c : Char) : List Nat :=
  let n := c.toNat
  if n < 128 then [n]
  else if n < 2048 then [192 ||| (n >>> 6), 128 ||| (n &&& 63)]
  else if n < 65536 then
    [224 ||| (n >>> 12), 128 ||| ((n >>> 6) &&& 63), 128 ||| (n &&& 63)]
  else
    [240 ||| (n >>> 18), 128 ||| ((n >>> 12) &&& 63),
     128 ||| ((n >>> 6) &&& 63), 128 ||| (n &&& 63)]

/-- `str.encode()`: UTF-8 bytes of a string. -/
def strBytes (s : String) : List Nat :=
  (s.data.map utf8Bytes).flatten

/-- `DataNormalizer._generate_id`: the first 16 hex characters of the MD5
of `f"{source}:{data.get('url', '')}:{data.get('title', '')}"` — note the
raw, un-canonicalized `url` and `title` values are hashed. -/
def generate_id (source : String) (data : RawData) : String :=
  let unique_string :=
    source ++ ":" ++ pyStr (dictGet data "url" (PyVal.str "")) ++ ":" ++
      pyStr (dictGet data "title" (PyVal.str ""))
  (md5Hex (strBytes unique_string)).take 16

/-! ### `_normalize_url`, `_normalize_text`, `_normalize_location` -/

/-- `re.sub(r'\?utm_[^&]+&?', '?', ·)`: left-to-right scan; on a match the
replacement `?` is emitted and scanning resumes after the matched text.
The fuel argument (at least the input length) makes the recursion
structural; each step consumes at least one input character. -/
def subQutmGo : Nat → List Char → List Char
  | 0, cs => cs
  | _ + 1, [] => []
  | fuel + 1, '?' :: 'u' :: 't' :: 'm' :: '_' :: rest =>
    let run := rest.takeWhile (fun c => c ≠ '&')
    if run.isEmpty then '?' :: subQutmGo fuel ('u' :: 't' :: 'm' :: '_' :: rest)
    else
      match rest.drop run.length with
      | '&' :: tail => '?' :: subQutmGo fuel tail
      | tail => '?' :: subQutmGo fuel tail
  | fuel + 1, c :: rest => c :: subQutmGo fuel rest

/-- `re.sub(r'&utm_[^&]+', '', ·)`: matches are deleted. -/
def subAmputmGo : Nat → List Char → List Char
  | 0, cs => cs
  | _ + 1, [] => []
  | fuel + 1, '&' :: 'u' :: 't' :: 'm' :: '_' :: rest =>
    let run := rest.takeWhile (fun c => c ≠ '&')
    if run.isEmpty then '&' :: subAmputmGo fuel ('u' :: 't' :: 'm' :: '_' :: rest)
    else subAmputmGo fuel (rest.drop run.length)
  | fuel + 1, c :: rest => c :: subAmputmGo fuel rest

/-- `DataNormalizer._normalize_url`. -/
def normalize_url (url : PyVal) : String :=
  if ¬url.truthy then ""
  else
    let u := pyStrip (pyStr url)
    let u := String.mk (subQutmGo (u.data.length + 1) u.data)
    let u := String.mk (subAmputmGo (u.data.length + 1) u.data)
    pyRstrip (fun c => c = '?' ∨ c = '&') u

/-- `DataNormalizer._normalize_text`. -/
def normalize_text (text : PyVal) : String :=
  if ¬text.truthy then ""
  else pyStrip (squeezeWs (pyStr text))

/-- `DataNormalizer._normalize_location`. -/
def normalize_location (location : PyVal) : String :=
  if ¬location.truthy then ""
  else
    let l := pyStrip (pyStr location)
    let l := squeezeWs l
    let l := l.replace "USA" "United States"
    l.replace "UK" "United Kingdom"

/-! ### `_detect_mode` -/

/-- `DataNormalizer.online_keywords`. -/
def online_keywords : List String :=
  ["online", "virtual", "remote", "worldwide", "global",
   "anywhere", "digital", "internet", "web-based"]

/-- `DataNormalizer.in_person_keywords`. -/
def in_person_keywords : List String :=
  ["in-person", "in person", "onsite", "on-site", "offline",
   "physical", "venue", "campus"]

/-- The body of `_detect_mode` after the `.lower()` call succeeded:
`explicit_mode` is the lower-cased explicit mode string. -/
def detect_mode_str (explicit_mode location : String) (raw : RawData) : String :=
  if strIn "hybrid" explicit_mode then "hybrid"
  else if ["online", "virtual", "remote"].any (fun kw => strIn kw explicit_mode) then
    "online"
  else if ["in-person", "in person", "onsite"].any (fun kw => strIn kw explicit_mode) then
    "in-person"
  else
    let description_str := pyStr (pyOr (dictGetN raw "description") (PyVal.str ""))
    let text := asciiLower (location ++ " " ++ description_str)
    let has_online := online_keywords.any (fun kw => strIn kw text)
    let has_inperson := in_person_keywords.any (fun kw => strIn kw text)
    if has_online && has_inperson then "hybrid"
    else if has_online then "online"
    else if has_inperson ||
        (location ≠ "" && ¬["online", "virtual", "remote"].contains (asciiLower location)) then
      "in-person"
    else "unknown"

/-- `DataNormalizer._detect_mode`.  `(raw_data.get('mode') or '').lower()`
raises `AttributeError` when the `mode` value is truthy but not a string
(`.lower()` on an `int`/`list`); otherwise the rest of the function
(`detect_mode_str`) is pure. -/
def detect_mode (location : String) (raw : RawData) : Except String String :=
  match pyOr (dictGetN raw "mode") (PyVal.str "") with
  | PyVal.str s => .ok (detect_mode_str (asciiLower s) location raw)
  | _ => .error "AttributeError"

/-! ### `_normalize_prize` -/

/-- Leftmost match of `[\d,]+\.?\d*` (the searched string has its commas
removed first, so the class only ever matches digits). -/
def searchNumRun : List Char → Option (List Char)
  | [] => Option.none
  | c :: rest =>
    if c.isDigit then
      let ds := (c :: rest).takeWhile Char.isDigit
      let r1 := (c :: rest).drop ds.length
      match r1 with
      | '.' :: r2 => some (ds ++ '.' :: r2.takeWhile Char.isDigit)
      | _ => some ds
    else searchNumRun rest

/-- Numeric value of a digit run. -/
def natOfDigits (cs : List Char) : Nat :=
  cs.foldl (fun acc c => acc * 10 + digitVal c) 0

/-- A nonnegative decimal value `num / 10 ^ scale`: the exact model of
the Python floats `_normalize_prize` produces (every value it builds is a
finite decimal).  Kept in the canonical trailing-zero-free form so that
representation equality is value equality. -/
structure DecFloat where
  num : Nat
  scale : Nat
deriving DecidableEq, Repr

/-- Strip trailing zeros of the mantissa while the scale is positive. -/
def stripZeros : Nat → Nat → Nat × Nat
  | n, 0 => (n, 0)
  | n, s + 1 => if n % 10 = 0 then stripZeros (n / 10) s else (n, s + 1)

/-- Canonicalize a decimal value. -/
def DecFloat.norm (d : DecFloat) : DecFloat :=
  let p := stripZeros d.num d.scale
  ⟨p.1, p.2⟩

/-- `d ≥ k` for a natural threshold `k`. -/
def DecFloat.geN (d : DecFloat) (k : Nat) : Bool :=
  k * 10 ^ d.scale ≤ d.num

/-- `float()` of a `digits[.digits]` string, as an exact decimal.
(Python computes in binary doubles; all values the verified claims reach
are exactly representable.) -/
def parseFloatDec (cs : List Char) : DecFloat :=
  let ip := cs.takeWhile Char.isDigit
  let rest := cs.drop ip.length
  match rest with
  | '.' :: fp => DecFloat.norm ⟨natOfDigits (ip ++ fp), fp.length⟩
  | _ => ⟨natOfDigits ip, 0⟩

/-- `re.search(r'\dk\b', s)` existence (with the given suffix letter):
a digit, the letter, then a word boundary. -/
def digitSufAt (suffix : Char) : List Char → Bool
  | a :: b :: rest =>
    (a.isDigit && b = suffix &&
      (match rest with
       | [] => true
       | c :: _ => ¬isWordChar c)) || digitSufAt suffix (b :: rest)
  | _ => false

/-- Round half-to-even of `num / den` (Python `format(x, '.0f')`
rounding on the nonnegative values produced here; exact when the quotient
is exactly representable as a binary double, which every value reached by
the verified claims is). -/
def roundHalfEvenNat (num den : Nat) : Nat :=
  let q := num / den
  let r := num % den
  if 2 * r < den then q
  else if den < 2 * r then q + 1
  else if q % 2 = 0 then q else q + 1

/-- Python `f"{x/divisor:.0f}"` of a decimal value. -/
def fmt0fDiv (d : DecFloat) (divisor : Nat) : String :=
  toString (roundHalfEvenNat d.num (divisor * 10 ^ d.scale))

/-- Python `f"{x/divisor:.1f}"` of a decimal value. -/
def fmt1fDiv (d : DecFloat) (divisor : Nat) : String :=
  let n := roundHalfEvenNat (d.num * 10) (divisor * 10 ^ d.scale)
  toString (n / 10) ++ "." ++ toString (n % 10)

/-- `DataNormalizer._normalize_prize`, returning
`(display_string, numeric_value)`.  (The `float(numeric_str)` try/except
is dead: a match of `[\d,]+\.?\d*` in a comma-stripped string always
parses.) -/
def normalize_prize (prize : PyVal) : Option String × DecFloat :=
  if ¬prize.truthy then (Option.none, ⟨0, 0⟩)
  else
    let p := pyStrip (pyStr prize)
    let commaFree := p.data.filter (fun c => c ≠ ',')
    match searchNumRun commaFree with
    | Option.none => (some p, ⟨0, 0⟩)
    | some numStr =>
      let value := parseFloatDec numStr
      let value :=
        if digitSufAt 'k' (asciiLower p).data then DecFloat.norm ⟨value.num * 1000, value.scale⟩
        else if digitSufAt 'm' (asciiLower p).data then
          DecFloat.norm ⟨value.num * 1000000, value.scale⟩
        else value
      let display :=
        if value.geN 1000000 then "$" ++ fmt1fDiv value 1000000 ++ "M"
        else if value.geN 1000 then "$" ++ fmt0fDiv value 1000 ++ "K"
        else "$" ++ fmt0fDiv value 1
      (some display, value)

/-! ### `_normalize_tags` and `_parse_int` -/

/-- `DataNormalizer.tag_mappings`. -/
def tag_mappings : List (String × String) :=
  [("artificial intelligence", "AI"), ("machine learning", "ML"),
   ("blockchain", "Web3"), ("cryptocurrency", "Web3"),
   ("smart contracts", "Web3"), ("defi", "Web3"), ("nft", "Web3"),
   ("healthcare", "Health"), ("health tech", "Health"),
   ("financial technology", "FinTech"), ("internet of things", "IoT"),
   ("augmented reality", "AR/VR"), ("virtual reality", "AR/VR"),
   ("open source", "Open Source")]

/-- The tag loop of `_normalize_tags`: non-strings are skipped, tags are
stripped/lower-cased, mapped or title-cased, and deduplicated
case-insensitively preserving first-seen order. -/
def tagsLoop : List PyVal → List String → List String → List String
  | [], acc, _ => acc
  | t :: rest, acc, seen =>
    match t with
    | PyVal.str s =>
      let tg := asciiLower (pyStrip s)
      let tg := match List.lookup tg tag_mappings with
        | some m => m
        | Option.none => pyTitle tg
      if seen.contains (asciiLower tg) then tagsLoop rest acc seen
      else tagsLoop rest (acc ++ [tg]) (asciiLower tg :: seen)
    | _ => tagsLoop rest acc seen

/-- `DataNormalizer._normalize_tags`.  Iterating a truthy value that is
neither a string nor a list raises `TypeError`. -/
def normalize_tags (tags : PyVal) : Except String (List String) :=
  if ¬tags.truthy then .ok []
  else
    match tags with
    | PyVal.str s => .ok ((tagsLoop ((splitDelims s).map PyVal.str) [] []).take 10)
    | v =>
      match pyIter v with
      | .ok items => .ok ((tagsLoop items [] []).take 10)
      | .error e => .error e

/-- Grammar of Python `int()` digits after the sign: digits with single
underscores strictly between digits (state: just consumed a digit). -/
def duGo : List Char → Bool
  | [] => true
  | '_' :: [] => false
  | '_' :: c :: rest => c.isDigit && duGo rest
  | c :: rest => c.isDigit && duGo rest

/-- Python `int(s)` on a string: strip whitespace, optional sign, digit
run with optional single underscores strictly between digits (ASCII
digits; unicode digit classes are not modelled). -/
def pyIntOfStr (s : String) : Option Int :=
  let cs := (pyStrip s).data
  let sd : Int × List Char := match cs with
    | '-' :: rest => (-1, rest)
    | '+' :: rest => (1, rest)
    | rest => (1, rest)
  match sd.2 with
  | [] => Option.none
  | c :: rest =>
    if c.isDigit && duGo rest then
      some (sd.1 * Int.ofNat (natOfDigits ((c :: rest).filter (fun x => x ≠ '_'))))
    else Option.none

/-- `DataNormalizer._parse_int`: `int(value)` with `ValueError` and
`TypeError` caught and mapped to `None`. -/
def parse_int (v : PyVal) : Option Int :=
  match v with
  | PyVal.none => Option.none
  | PyVal.int n => some n
  | PyVal.str s => pyIntOfStr s
  | PyVal.list _ => Option.none

/-! ### The canonical record (`HackathonEvent`) and
`DataNormalizer.normalize` -/

/-- `HackathonEvent`, with the field types the normalizer actually
produces (pass-through fields keep `PyVal`). -/
structure HackathonEvent where
  id : String
  source : String
  title : String
  url : String
  start_date : Option String := Option.none
  end_date : Option String := Option.none
  registration_deadline : Option String := Option.none
  location : String := ""
  mode : String := "unknown"
  description : String := ""
  prize_pool : Option String := Option.none
  prize_pool_numeric : DecFloat := ⟨0, 0⟩
  tags : List String := []
  themes : PyVal := PyVal.list []
  image_url : PyVal := PyVal.none
  logo_url : PyVal := PyVal.none
  organizer : PyVal := PyVal.none
  participants_count : Option Int := Option.none
  team_size_min : Option Int := Option.none
  team_size_max : Option Int := Option.none
  status : String := "unknown"
  scraped_at : Option String := Option.none
  last_updated : PyVal := PyVal.none

/-- `DataNormalizer.normalize`.  `now` models `datetime.now()` (used by
date parsing and status derivation) and `nowIso` models
`datetime.utcnow().isoformat()` (stamped into `scraped_at`).  The result
is `Except` because `_detect_mode` and `_normalize_tags` can raise. -/
def pyNormalize (raw : RawData) (source : String) (now : PyNow) (nowIso : String) :
    Except String HackathonEvent :=
  let unique_id := generate_id source raw
  let title := normalize_text (dictGet raw "title" (PyVal.str ""))
  let url := normalize_url (dictGet raw "url" (PyVal.str ""))
  let start_date := parse_date now (pyOr (dictGetN raw "start_date") (dictGetN raw "date"))
  let end_date := parse_date now (dictGetN raw "end_date")
  let deadline := parse_date now
    (pyOr (dictGetN raw "deadline") (dictGetN raw "registration_deadline"))
  let location := normalize_location (dictGet raw "location" (PyVal.str ""))
  match detect_mode location raw with
  | .error m => .error m
  | .ok mode =>
  let prize := normalize_prize (pyOr (dictGetN raw "prize") (dictGetN raw "prize_pool"))
  match normalize_tags (dictGet raw "tags" (PyVal.list [])) with
  | .error m => .error m
  | .ok tags =>
  let status := determine_status start_date end_date now.today
  Except.ok
    { id := unique_id
      source := source
      title := title
      url := url
      start_date := start_date
      end_date := end_date
      registration_deadline := deadline
      location := location
      mode := mode
      description := (normalize_text (dictGet raw "description" (PyVal.str ""))).take 500
      prize_pool := prize.1
      prize_pool_numeric := prize.2
      tags := tags
      themes := dictGet raw "themes" (PyVal.list [])
      image_url := pyOr (dictGetN raw "image_url") (dictGetN raw "image")
      logo_url := pyOr (dictGetN raw "logo_url") (dictGetN raw "logo")
      organizer := dictGetN raw "organizer"
      participants_count := parse_int (dictGetN raw "participants")
      team_size_min := parse_int (dictGetN raw "team_size_min")
      team_size_max := parse_int (dictGetN raw "team_size_max")
      status := status
      scraped_at := some nowIso
      last_updated := dictGetN raw "last_updated" }

/-! ### The storage layer (`DatabaseManager`) -/

/-- The SQLite tables `save_event` touches: the `events` rows (keyed by
primary key `id`) and the `event_tags` / `event_themes` many-to-many
rows. -/
structure EventsDb where
  events : List HackathonEvent
  event_tags : List (String × String)
  event_themes : List (String × PyVal)

/-- `INSERT OR IGNORE` of one row into a table with a primary key on the
whole row. -/
def insertIgnore (rows : List (String × String)) (r : String × String) :
    List (String × String) :=
  if rows.contains r then rows else rows ++ [r]

/-- `INSERT OR IGNORE` for theme rows (theme values are raw `PyVal`
pass-throughs). -/
def insertIgnoreP (rows : List (String × PyVal)) (r : String × PyVal) :
    List (String × PyVal) :=
  if rows.contains r then rows else rows ++ [r]

/-- `DatabaseManager.save_event`: `INSERT OR REPLACE` of the whole events
row keyed by `id`, then delete-and-reinsert of the tag and theme rows.
`for theme in event.themes` raises `TypeError` when `themes` is not
iterable, and the enclosing connection context manager then rolls the
whole transaction back — modelled by the `Except` error discarding the
updated state. -/
def save_event (db : EventsDb) (e : HackathonEvent) : Except String EventsDb :=
  let events := db.events.filter (fun x => x.id ≠ e.id) ++ [e]
  let tagRows := (e.tags.map (fun t => (e.id, t))).foldl insertIgnore
    (db.event_tags.filter (fun p => p.1 ≠ e.id))
  match pyIter e.themes with
  | .error m => .error m
  | .ok themeVals =>
    let themeRows := (themeVals.map (fun t => (e.id, t))).foldl insertIgnoreP
      (db.event_themes.filter (fun p => p.1 ≠ e.id))
    .ok ⟨events, tagRows, themeRows⟩

/-- `DatabaseManager.get_event`: `SELECT * FROM events WHERE id = ?`,
first row or `None`. -/
def get_event (db : EventsDb) (event_id : String) : Option HackathonEvent :=
  db.events.find? (fun e => e.id == event_id)

/-- One `scrape_metadata` row (sans the source key). -/
structure ScrapeMeta where
  last_scraped : String
  event_count : Nat
  success : Bool
  error_message : Option String

/-- Database state visible to the scrape pipeline: the event tables plus
the per-source `scrape_metadata` table. -/
structure DbState where
  store : EventsDb
  metadata : List (String × ScrapeMeta)

/-- Python `dict[k] = v` semantics for an association list, also the
semantics of SQLite `INSERT OR REPLACE` on a single-column primary key:
an existing binding is overwritten in place, a new one is appended. -/
def dictInsert {α : Type} (d : List (String × α)) (k : String) (v : α) :
    List (String × α) :=
  if d.any (fun p => p.1 == k) then
    d.map (fun p => if p.1 == k then (k, v) else p)
  else d ++ [(k, v)]

/-- `DatabaseManager.update_scrape_metadata`: `INSERT OR REPLACE` of the
one row for `source` (`last_scraped` stamped with `datetime.now()`). -/
def update_scrape_metadata (db : DbState) (source : String) (event_count : Nat)
    (success : Bool) (error_message : Option String) (nowIso : String) : DbState :=
  { db with
    metadata := dictInsert db.metadata source ⟨nowIso, event_count, success, error_message⟩ }

/-- `DatabaseManager.save_events`: save each event (every successful
`save_event` returns `True`, so the count is the list length), then
record `update_scrape_metadata(source, count, True)` — with no error
message.  Python commits each `save_event` in its own transaction, so a
mid-list `TypeError` leaves earlier events committed; the `Except` error
here carries no state, which is sound for the claims (none reaches that
path). -/
def save_events (db : DbState) (events : List HackathonEvent) (source : String)
    (nowIso : String) : Except String (Nat × DbState) := do
  let store ← events.foldlM save_event db.store
  let count := events.length
  pure (count, update_scrape_metadata ⟨store, db.metadata⟩ source count true Option.none nowIso)

/-! ### The strategy chain and `BaseScraper.scrape` -/

/-- The observable outcome of invoking one acquisition strategy: a list
of raw payloads, or a raised exception (`ScrapingError` or any other —
`scrape` catches both identically, remembering the message). -/
inductive StratOutcome where
  | events (l : List RawData)
  | raise (msg : String)

/-- The strategy loop of `BaseScraper.scrape` (lines 122–137): `events`
starts `[]`; a raise records the error and continues; an empty result
continues; the first non-empty result breaks the loop. -/
def chainGo (error : Option String) :
    List (String × StratOutcome) → List RawData × Option String
  | [] => ([], error)
  | (_, StratOutcome.events evs) :: rest =>
    if evs.isEmpty then chainGo error rest else (evs, error)
  | (_, StratOutcome.raise msg) :: rest => chainGo (some msg) rest

/-- `BaseScraper._get_method_sequence`: `api` first when the config's
`method` is `'api'` or `api_hints`/`api_config` is truthy, then always
`http` and `browser`. -/
def get_method_sequence (config : RawData) : List String :=
  let method := dictGet config "method" (PyVal.str "http")
  let api_hint := (pyOr (dictGetN config "api_hints") (dictGetN config "api_config")).truthy
  (if (method == PyVal.str "api") || api_hint then ["api"] else []) ++ ["http", "browser"]

/-- `DatabaseManager.query_events(source=short_name)` row retrieval as
used by `_get_cached_events`, abstracted to the per-source row set: the
default `ORDER BY start_date ASC` and `LIMIT 50` pagination of
`query_events` are not modelled, since no verified claim inspects the
cache-path payload beyond which branch is taken. -/
def queryBySource (db : DbState) (source : String) : List HackathonEvent :=
  db.store.events.filter (fun e => e.source == source)

/-- `BaseScraper.scrape` with a database and normalizer attached (as the
orchestrator always runs it).  `cacheFresh` is the value of
`_is_cache_fresh()`; `impl` gives each strategy's outcome for this run;
the result is the returned event list and the updated database.  The one
`nowIso` parameter stands for both `datetime.utcnow().isoformat()`
(stamped into `scraped_at`) and `datetime.now().isoformat()` (stamped
into `last_scraped`); their difference is opaque to every claim. -/
def scrape (force_refresh cacheFresh : Bool) (impl : String → StratOutcome)
    (config : RawData) (short_name : String) (db : DbState) (now : PyNow)
    (nowIso : String) : Except String (List HackathonEvent × DbState) :=
  if !force_refresh && cacheFresh then .ok (queryBySource db short_name, db)
  else
    let r := chainGo Option.none
      ((get_method_sequence config).map (fun n => (n, impl n)))
    if r.1.isEmpty then .ok ([], db)
    else do
      let normalized ← r.1.mapM (fun raw => pyNormalize raw short_name now nowIso)
      let s ← save_events db normalized short_name nowIso
      pure (normalized, s.2)

/-! ### The batch orchestrator (`HackFind`) -/

/-- `HackFind.scrape_site`: runs one site's scrape, returning the event
count; any exception is caught and yields `0`. -/
def scrape_site (outcome : String → Except String (List HackathonEvent)) (site_key : String) :
    Nat :=
  match outcome site_key with
  | .ok evs => evs.length
  | .error _ => 0

/-- `HackFind.scrape_all`: `results[site_key] = scrape_site(site_key)`
over the requested keys. -/
def scrape_all (outcome : String → Except String (List HackathonEvent))
    (site_keys : List String) : List (String × Nat) :=
  site_keys.foldl (fun results k => dictInsert results k (scrape_site outcome k)) []

/-! ## Theorems -/

/-- The effective end date of status derivation, as the specification
describes it: the parsed `end_date`, taken as `start` when `end_date` is
absent or unparseable. -/
def effectiveEnd (start : Date) (end_date : Option String) : Date :=
  match end_date with
  | Option.none => start
  | some es => (strptimeYmd es).getD start

theorem strptimeYmd_empty : strptimeYmd "" = Option.none := by decide

/-- Reformulation of `_determine_status` when the start date parses: the
status is a three-way comparison against `effectiveEnd`. -/
theorem determine_status_parsed (s : String) (ds : Date) (e : Option String) (today : Date)
    (h : strptimeYmd s = some ds) :
    determine_status (some s) e today =
      if dateLt today ds then "upcoming"
      else if dateLe ds today && dateLe today (effectiveEnd ds e) then "ongoing"
      else "ended" := by
  have hs : s ≠ "" := by
    intro h0
    rw [h0, strptimeYmd_empty] at h
    exact Option.noConfusion h
  unfold determine_status
  simp only [optStrTruthy, Option.getD, h]
  cases e with
  | none => simp [hs, effectiveEnd]
  | some es =>
    by_cases he : es = ""
    · subst he
      simp [hs, effectiveEnd, strptimeYmd_empty]
    · cases hp : strptimeYmd es <;> simp [hs, he, hp, effectiveEnd]

/-- C6: for optional ISO dates and a current date, `_determine_status`
returns `"upcoming"` iff today < start; `"ongoing"` iff
start ≤ today ≤ end, with the effective end taken as start when
`end_date` is absent or unparseable; `"ended"` otherwise; and
`"unknown"` whenever the start date is absent or unparseable. -/
theorem claim_C6 (s : String) (e : Option String) (today ds : Date)
    (h : strptimeYmd s = some ds) :
    (determine_status (some s) e today = "upcoming" ↔ dateLt today ds = true) ∧
    (determine_status (some s) e today = "ongoing" ↔
      (dateLe ds today = true ∧ dateLe today (effectiveEnd ds e) = true)) ∧
    (determine_status (some s) e today = "ended" ↔
      (dateLt today ds = false ∧
        (dateLe ds today = false ∨ dateLe today (effectiveEnd ds e) = false))) ∧
    determine_status Option.none e today = "unknown" ∧
    (∀ s', strptimeYmd s' = Option.none →
      determine_status (some s') e today = "unknown") := by
  rw [determine_status_parsed s ds e today h]
  have hlt_of_le : ∀ a b : Date, dateLe a b = true → dateLt b a = false := by
    intro a b
    simp only [dateLt, dateLe, decide_eq_true_eq, decide_eq_false_iff_not]
    omega
  refine ⟨?_, ?_, ?_, by simp [determine_status, optStrTruthy], ?_⟩
  · constructor
    · intro hst
      by_cases hlt : dateLt today ds = true
      · exact hlt
      · exfalso
        rw [if_neg hlt] at hst
        by_cases hog : (dateLe ds today && dateLe today (effectiveEnd ds e)) = true
        · rw [if_pos hog] at hst
          exact absurd hst (by decide)
        · rw [if_neg hog] at hst
          exact absurd hst (by decide)
    · intro hlt
      rw [if_pos hlt]
  · constructor
    · intro hst
      by_cases hlt : dateLt today ds = true
      · rw [if_pos hlt] at hst
        exact absurd hst (by decide)
      · rw [if_neg hlt] at hst
        by_cases hog : (dateLe ds today && dateLe today (effectiveEnd ds e)) = true
        · simpa using hog
        · rw [if_neg hog] at hst
          exact absurd hst (by decide)
    · rintro ⟨h1, h2⟩
      have hlt : dateLt today ds = false := hlt_of_le ds today h1
      rw [if_neg (by simp [hlt]), if_pos (by simp [h1, h2])]
  · constructor
    · intro hst
      by_cases hlt : dateLt today ds = true
      · rw [if_pos hlt] at hst
        exact absurd hst (by decide)
      · rw [if_neg hlt] at hst
        by_cases hog : (dateLe ds today && dateLe today (effectiveEnd ds e)) = true
        · rw [if_pos hog] at hst
          exact absurd hst (by decide)
        · refine ⟨by simpa using hlt, ?_⟩
          rcases Bool.eq_false_or_eq_true (dateLe ds today) with h' | h'
          · rcases Bool.eq_false_or_eq_true (dateLe today (effectiveEnd ds e)) with h'' | h''
            · exact absurd (by simp [h', h'']) hog
            · exact Or.inr h''
          · exact Or.inl h'
    · rintro ⟨hlt, hor⟩
      rw [if_neg (by simp [hlt]), if_neg (by rcases hor with h' | h' <;> simp [h'])]
  · intro s' hp
    by_cases hs' : s' = ""
    · subst hs'
      simp [determine_status, optStrTruthy]
    · simp [determine_status, optStrTruthy, hs', hp]

/-- Witness for C6 at concrete dates: a start strictly after today is
`"upcoming"`, a start before and end after today is `"ongoing"`, a past
start with no end is `"ended"`, and a missing start is `"unknown"`. -/
theorem claim_C6_witness :
    determine_status (some "2026-10-20") Option.none ⟨2026, 10, 12⟩ = "upcoming" ∧
    determine_status (some "2026-10-10") (some "2026-10-14") ⟨2026, 10, 12⟩ = "ongoing" ∧
    determine_status (some "2026-10-01") Option.none ⟨2026, 10, 12⟩ = "ended" ∧
    determine_status Option.none (some "2026-10-14") ⟨2026, 10, 12⟩ = "unknown" :=
  ⟨(claim_C6 "2026-10-20" Option.none ⟨2026, 10, 12⟩ ⟨2026, 10, 20⟩ (by decide)).1.mpr
      (by decide),
   (claim_C6 "2026-10-10" (some "2026-10-14") ⟨2026, 10, 12⟩ ⟨2026, 10, 10⟩
      (by decide)).2.1.mpr (by decide),
   (claim_C6 "2026-10-01" Option.none ⟨2026, 10, 12⟩ ⟨2026, 10, 1⟩
      (by decide)).2.2.1.mpr (by decide),
   (claim_C6 "2026-10-20" (some "2026-10-14") ⟨2026, 10, 12⟩ ⟨2026, 10, 20⟩
      (by decide)).2.2.2.1⟩

/-- C7 counterexample: the claim says a missing `start_date` is treated
as equal to the known `end_date`, which would yield `"ended"` for a
long-past end date; the code instead returns `"unknown"` whenever
`start_date` is missing (the symmetric case, missing `end_date`, does
yield `"ended"`). -/
theorem claim_C7_cex :
    determine_status Option.none (some "2020-01-01") ⟨2026, 10, 12⟩ = "unknown" ∧
    determine_status (some "2020-01-01") (some "2020-01-01") ⟨2026, 10, 12⟩ = "ended" ∧
    "unknown" ≠ "ended" := by
  refine ⟨by decide, by decide, by decide⟩

/-- C7 amended: only a missing (or unparseable) `end_date` is treated as
equal to `start_date`; a missing or unparseable `start_date` makes the
status `"unknown"` regardless of `end_date`. -/
theorem claim_C7_amended (s : String) (e : Option String) (today : Date) :
    determine_status (some s) Option.none today =
      determine_status (some s) (some s) today ∧
    determine_status Option.none e today = "unknown" ∧
    (strptimeYmd s = Option.none → determine_status (some s) e today = "unknown") := by
  refine ⟨?_, by simp [determine_status, optStrTruthy], ?_⟩
  · by_cases hs : s = ""
    · subst hs
      simp [determine_status, optStrTruthy]
    · cases hp : strptimeYmd s with
      | none => simp [determine_status, optStrTruthy, hs, hp]
      | some ds =>
        rw [determine_status_parsed s ds Option.none today hp,
          determine_status_parsed s ds (some s) today hp]
        simp [effectiveEnd, hp]
  · intro hp
    by_cases hs : s = ""
    · subst hs
      simp [determine_status, optStrTruthy]
    · simp [determine_status, optStrTruthy, hs, hp]

/-- Witness for C7 amended: a parseable start with missing end equals the
end-equal-to-start call; an unparseable start is `"unknown"`. -/
theorem claim_C7_witness :
    determine_status (some "2026-10-10") Option.none ⟨2026, 10, 12⟩ =
      determine_status (some "2026-10-10") (some "2026-10-10") ⟨2026, 10, 12⟩ ∧
    determine_status (some "junk") (some "2026-10-14") ⟨2026, 10, 12⟩ = "unknown" :=
  ⟨(claim_C7_amended "2026-10-10" Option.none ⟨2026, 10, 12⟩).1,
   (claim_C7_amended "junk" (some "2026-10-14") ⟨2026, 10, 12⟩).2.2 (by decide)⟩

/-- C1 counterexample: the two URLs differ only by a `utm_` tracking
parameter — `_normalize_url` maps both to the same canonical URL — yet
`_generate_id` produces different identities, because it hashes the raw
`url` value before any canonicalization. -/
theorem claim_C1_cex :
    normalize_url (PyVal.str "https://example.com/page?utm_source=news") =
      normalize_url (PyVal.str "https://example.com/page") ∧
    generate_id "MLH"
        [("url", PyVal.str "https://example.com/page?utm_source=news"),
         ("title", PyVal.str "Hack")] ≠
      generate_id "MLH"
        [("url", PyVal.str "https://example.com/page"), ("title", PyVal.str "Hack")] :=
  ⟨by decide, by decide⟩

/-- C1 amended: `_generate_id` hashes the raw `url` and `title` values of
the payload (no canonicalization), so the identity depends only on
`source` and those two raw values — it is insensitive to every other raw
field and their ordering — but it is NOT invariant to tracking-parameter
differences (shown concretely), and changing the title changes the
identity (shown concretely). -/
theorem claim_C1_amended :
    (∀ (source : String) (d1 d2 : RawData),
      dictGet d1 "url" (PyVal.str "") = dictGet d2 "url" (PyVal.str "") →
      dictGet d1 "title" (PyVal.str "") = dictGet d2 "title" (PyVal.str "") →
      generate_id source d1 = generate_id source d2) ∧
    generate_id "MLH"
        [("url", PyVal.str "https://example.com/page?utm_source=news"),
         ("title", PyVal.str "Hack")] ≠
      generate_id "MLH"
        [("url", PyVal.str "https://example.com/page"), ("title", PyVal.str "Hack")] ∧
    generate_id "MLH"
        [("url", PyVal.str "https://example.com/page"), ("title", PyVal.str "Hack")] ≠
      generate_id "MLH"
        [("url", PyVal.str "https://example.com/page"), ("title", PyVal.str "Hack 2.0")] := by
  refine ⟨?_, by decide, by decide⟩
  intro source d1 d2 hu ht
  unfold generate_id
  rw [hu, ht]

/-- Witness for C1 amended: two payloads with equal raw `url`/`title` but
different extra fields in a different order get the same identity. -/
theorem claim_C1_witness :
    generate_id "S"
        [("title", PyVal.str "T"), ("url", PyVal.str "U"), ("prize", PyVal.str "$1")] =
      generate_id "S"
        [("location", PyVal.str "X"), ("url", PyVal.str "U"), ("title", PyVal.str "T")] :=
  claim_C1_amended.1 "S"
    [("title", PyVal.str "T"), ("url", PyVal.str "U"), ("prize", PyVal.str "$1")]
    [("location", PyVal.str "X"), ("url", PyVal.str "U"), ("title", PyVal.str "T")]
    rfl rfl

/-- C8 counterexample: the claim says `"TBD"` maps to display `None`; the
code returns the raw string itself as the display (`return prize, 0.0` on
a failed numeric match), so the display is `some "TBD"`, not `None`. -/
theorem claim_C8_cex :
    normalize_prize (PyVal.str "TBD") = (some "TBD", ⟨0, 0⟩) ∧
    (some "TBD" : Option String) ≠ Option.none :=
  ⟨by decide, by decide⟩

/-- C8 amended: `"$10,000"` → numeric `10000` with display `"$10K"` and
`"$1.5M"` → numeric `1500000` as claimed; empty input → `(None, 0)`; but
`"TBD"` (an unparseable non-empty input) keeps the raw string as its
display with numeric `0`.  The numeric component is by construction a
(nonnegative) decimal value, never `None` — only the display may be — and
it is `0` whenever the display is `None`. -/
theorem claim_C8_amended :
    normalize_prize (PyVal.str "$10,000") = (some "$10K", ⟨10000, 0⟩) ∧
    normalize_prize (PyVal.str "$1.5M") = (some "$1.5M", ⟨1500000, 0⟩) ∧
    normalize_prize (PyVal.str "TBD") = (some "TBD", ⟨0, 0⟩) ∧
    normalize_prize (PyVal.str "") = (Option.none, ⟨0, 0⟩) ∧
    (∀ p : PyVal, (normalize_prize p).1 = Option.none →
      (normalize_prize p).2 = DecFloat.mk 0 0) := by
  refine ⟨by decide, by decide, by decide, by decide, ?_⟩
  intro p h
  unfold normalize_prize at h ⊢
  split at h
  · simp_all
  · exfalso
    cases hm : searchNumRun (List.filter (fun c => decide (c ≠ ',')) (pyStrip (pyStr p)).data) with
    | none =>
      simp only [hm] at h
      exact Option.noConfusion h
    | some numStr =>
      simp only [hm] at h
      exact Option.noConfusion h

/-- Witness for C8 amended at a concrete input: a falsy prize value has
display `None`, and the implication instantiates to numeric `0`. -/
theorem claim_C8_witness : (normalize_prize PyVal.none).2 = DecFloat.mk 0 0 :=
  claim_C8_amended.2.2.2.2 PyVal.none rfl

/-- The payloads on which `_detect_mode` does not raise: a `mode` value
that is falsy or a string. -/
def modeSafe (v : PyVal) : Bool := !v.truthy || v.isStr

/-- The payloads on which `_normalize_tags` does not raise: a `tags`
value that is falsy, a string, or a list. -/
def tagsSafe (v : PyVal) : Bool := !v.truthy || v.isStr || v.isList

theorem except_isOk_ite {c : Prop} [Decidable c] (a b : Except String String) :
    (if c then a else b).isOk = if c then a.isOk else b.isOk := by
  split <;> rfl

theorem detect_mode_isOk (location : String) (raw : RawData) :
    (detect_mode location raw).isOk = modeSafe (dictGetN raw "mode") := by
  unfold detect_mode modeSafe pyOr
  cases hv : dictGetN raw "mode" with
  | none => simp [PyVal.truthy, PyVal.isStr, Except.isOk, Except.toBool, except_isOk_ite]
  | str s =>
    by_cases hs : s = "" <;>
      simp [hs, PyVal.truthy, PyVal.isStr, Except.isOk, Except.toBool, except_isOk_ite]
  | int n =>
    by_cases hn : n = 0 <;>
      simp [hn, PyVal.truthy, PyVal.isStr, Except.isOk, Except.toBool, except_isOk_ite]
  | list l =>
    cases l <;> simp [PyVal.truthy, PyVal.isStr, Except.isOk, Except.toBool, except_isOk_ite]

theorem normalize_tags_isOk (tags : PyVal) :
    (normalize_tags tags).isOk = tagsSafe tags := by
  unfold normalize_tags tagsSafe
  cases tags with
  | none => simp [PyVal.truthy, PyVal.isStr, PyVal.isList, Except.isOk, Except.toBool]
  | str s =>
    by_cases hs : s = "" <;>
      simp [hs, PyVal.truthy, PyVal.isStr, PyVal.isList, Except.isOk, Except.toBool]
  | int n =>
    by_cases hn : n = 0 <;>
      simp [hn, PyVal.truthy, PyVal.isStr, PyVal.isList, pyIter, Except.isOk, Except.toBool]
  | list l =>
    cases l <;> simp [PyVal.truthy, PyVal.isStr, PyVal.isList, pyIter, Except.isOk, Except.toBool]

/-- C9 counterexample: a payload whose `mode` value is the integer `5`
makes `normalize` raise `AttributeError` (from
`(raw_data.get('mode') or '').lower()`) instead of degrading the field —
normalization is not exception-free for arbitrary field value types. -/
theorem claim_C9_cex :
    pyNormalize [("mode", PyVal.int 5)] "MLH" ⟨⟨2026, 10, 12⟩, true⟩ "2026-10-12T00:00:00" =
      Except.error "AttributeError" := rfl

/-- C9 amended: `normalize` returns a record without raising exactly when
the payload's `mode` value is falsy-or-string and its `tags` value is
falsy, a string, or a list; every other field-level parse failure
degrades locally, but a truthy non-string `mode` (AttributeError) or a
truthy non-string non-list `tags` (TypeError) aborts normalization. -/
theorem claim_C9_amended (raw : RawData) (source : String) (now : PyNow) (nowIso : String) :
    (pyNormalize raw source now nowIso).isOk =
      (modeSafe (dictGetN raw "mode") && tagsSafe (dictGet raw "tags" (PyVal.list []))) := by
  have h1 := detect_mode_isOk (normalize_location (dictGet raw "location" (PyVal.str ""))) raw
  have h2 := normalize_tags_isOk (dictGet raw "tags" (PyVal.list []))
  unfold pyNormalize
  cases hm : detect_mode (normalize_location (dictGet raw "location" (PyVal.str ""))) raw with
  | error e =>
    rw [hm] at h1
    simp only [hm, ← h1]
    rfl
  | ok m =>
    rw [hm] at h1
    cases ht : normalize_tags (dictGet raw "tags" (PyVal.list [])) with
    | error e =>
      rw [ht] at h2
      simp only [hm, ht, ← h1, ← h2]
      rfl
    | ok tg =>
      rw [ht] at h2
      simp only [hm, ht, ← h1, ← h2]
      rfl

/-- C10 counterexample: a payload lacking both `title` and `url` on which
`normalize` does NOT return a record — it raises `TypeError` while
iterating the integer `tags` value — refuting the universal
"normalize still returns a record" for title-less/url-less payloads. -/
theorem claim_C10_cex :
    pyNormalize [("tags", PyVal.int 3)] "MLH" ⟨⟨2026, 10, 12⟩, true⟩ "2026-10-12T00:00:00" =
      Except.error "TypeError" ∧
    List.lookup "title" ([("tags", PyVal.int 3)] : RawData) = Option.none ∧
    List.lookup "url" ([("tags", PyVal.int 3)] : RawData) = Option.none :=
  ⟨rfl, rfl, rfl⟩

set_option maxHeartbeats 1000000 in
/-- C10 amended: whenever `normalize` succeeds on a payload lacking the
`title` and `url` keys, the record's `title` and `url` are the empty
string (never `None`) and its identity is the 16-hex-character MD5 prefix
of `source ++ "::"` — the same identity for every such payload of one
source; `normalize` performs no presence check on the required fields. -/
theorem claim_C10_amended (raw raw' : RawData) (source : String) (now now' : PyNow)
    (nowIso nowIso' : String) (e e' : HackathonEvent)
    (ht : List.lookup "title" raw = Option.none)
    (hu : List.lookup "url" raw = Option.none)
    (ht' : List.lookup "title" raw' = Option.none)
    (hu' : List.lookup "url" raw' = Option.none)
    (he : pyNormalize raw source now nowIso = Except.ok e)
    (he' : pyNormalize raw' source now' nowIso' = Except.ok e') :
    e.title = "" ∧ e.url = "" ∧
    e.id = (md5Hex (strBytes (source ++ ":" ++ "" ++ ":" ++ ""))).take 16 ∧
    e'.id = e.id := by
  have key : ∀ (raw0 : RawData) (now0 : PyNow) (iso0 : String) (e0 : HackathonEvent),
      List.lookup "title" raw0 = Option.none → List.lookup "url" raw0 = Option.none →
      pyNormalize raw0 source now0 iso0 = Except.ok e0 →
      e0.title = "" ∧ e0.url = "" ∧
      e0.id = (md5Hex (strBytes (source ++ ":" ++ "" ++ ":" ++ ""))).take 16 := by
    intro raw0 now0 iso0 e0 ht0 hu0 he0
    unfold pyNormalize at he0
    cases hm : detect_mode (normalize_location (dictGet raw0 "location" (PyVal.str ""))) raw0 with
    | error m =>
      simp only [hm] at he0
      exact Except.noConfusion he0
    | ok m =>
      simp only [hm] at he0
      cases htg : normalize_tags (dictGet raw0 "tags" (PyVal.list [])) with
      | error m2 =>
        simp only [htg] at he0
        exact Except.noConfusion he0
      | ok tg =>
        simp only [htg] at he0
        have hr : e0 = _ := (Except.ok.inj he0).symm
        subst hr
        refine ⟨?_, ?_, ?_⟩
        · simp [normalize_text, dictGet, ht0, PyVal.truthy]
        · simp [normalize_url, dictGet, hu0, PyVal.truthy]
        · simp [generate_id, dictGet, ht0, hu0, pyStr]
  obtain ⟨h1t, h1u, h1i⟩ := key raw now nowIso e ht hu he
  obtain ⟨_, _, h2i⟩ := key raw' now' nowIso' e' ht' hu' he'
  exact ⟨h1t, h1u, h1i, by rw [h2i, h1i]⟩

/-- Helper extracting the record of a successful normalization (used by
the C10 witness to name the concrete records). -/
def exOk (x : Except String HackathonEvent) : HackathonEvent :=
  match x with
  | .ok e => e
  | .error _ => { id := "", source := "", title := "", url := "" }

/-- The record normalized from the title-less, url-less payload
`{'prize': '$1'}`. -/
def c10e : HackathonEvent :=
  exOk (pyNormalize [("prize", PyVal.str "$1")] "MLH" ⟨⟨2026, 10, 12⟩, true⟩ "T1")

/-- The record normalized from the empty payload. -/
def c10e' : HackathonEvent :=
  exOk (pyNormalize [] "MLH" ⟨⟨2026, 10, 12⟩, false⟩ "T2")

/-- Witness for C10 amended at two concrete title-less/url-less payloads:
both normalize successfully, with empty title/url and one shared
identity. -/
theorem claim_C10_witness :
    c10e.title = "" ∧ c10e.url = "" ∧
    c10e.id = (md5Hex (strBytes ("MLH" ++ ":" ++ "" ++ ":" ++ ""))).take 16 ∧
    c10e'.id = c10e.id :=
  claim_C10_amended [("prize", PyVal.str "$1")] [] "MLH" ⟨⟨2026, 10, 12⟩, true⟩
    ⟨⟨2026, 10, 12⟩, false⟩ "T1" "T2" c10e c10e' rfl rfl rfl rfl rfl rfl

/-- `find?` by id over rows filtered to other ids equals `find?` over the
original rows. -/
theorem find?_filter_ne (l : List HackathonEvent) (i j : String) (hij : j ≠ i) :
    (l.filter (fun x => x.id ≠ i)).find? (fun x => x.id == j) =
      l.find? (fun x => x.id == j) := by
  rw [List.find?_filter]
  congr 1
  funext x
  by_cases hx : x.id = j
  · simp [hx, hij]
  · simp [hx]

/-- The stored record with the old known `start_date`. -/
def evC2old : HackathonEvent :=
  { id := "e1", source := "S", title := "T", url := "U", start_date := some "2026-01-01" }

/-- The re-scraped record with the same identity but `start_date` absent
(`None`). -/
def evC2new : HackathonEvent :=
  { id := "e1", source := "S", title := "T", url := "U" }

/-- C2 counterexample: storing a record whose `start_date` is known, then
upserting a record with the same identity whose `start_date` is `None`,
leaves the stored `start_date` as `None` — the absent field DID overwrite
the previously-known value, because `save_event` is a whole-row
`INSERT OR REPLACE`, not a merge. -/
theorem claim_C2_cex :
    Except.map (fun db => Option.map (fun e => e.start_date) (get_event db "e1"))
        ((save_event ⟨[], [], []⟩ evC2old).bind (fun db => save_event db evC2new)) =
      Except.ok (some Option.none) ∧
    evC2old.start_date = some "2026-01-01" :=
  ⟨rfl, rfl⟩

/-- C2 amended: `save_event` replaces the whole stored row for the
record's identity — after a successful save the stored record is exactly
the new record, nulls included — while records with any other identity
are untouched. -/
theorem claim_C2_amended (db : EventsDb) (e : HackathonEvent) (db' : EventsDb)
    (h : save_event db e = Except.ok db') :
    get_event db' e.id = some e ∧
    (∀ j, j ≠ e.id → get_event db' j = get_event db j) := by
  unfold save_event at h
  cases hit : pyIter e.themes with
  | error m =>
    simp only [hit] at h
    exact Except.noConfusion h
  | ok ths =>
    simp only [hit] at h
    have hdb : db' = _ := (Except.ok.inj h).symm
    subst hdb
    constructor
    · unfold get_event
      simp only [List.find?_append]
      have h1 : List.find? (fun x => x.id == e.id)
          (db.events.filter (fun x => x.id ≠ e.id)) = Option.none := by
        rw [List.find?_eq_none]
        intro x hx
        have hx2 := (List.mem_filter.mp hx).2
        simp only [decide_eq_true_eq] at hx2
        simp [hx2]
      rw [h1]
      simp [List.find?]
    · intro j hj
      unfold get_event
      simp only [List.find?_append]
      have h2 : List.find? (fun x => x.id == j) [e] = Option.none := by
        have hb : (e.id == j) = false := beq_eq_false_iff_ne.mpr (Ne.symm hj)
        simp [List.find?, hb]
      rw [h2, find?_filter_ne db.events e.id j hj]
      cases db.events.find? (fun x => x.id == j) <;> rfl

/-- Helper extracting the table state of a successful save (used by the
C2 witness to name the concrete states). -/
def exOkDb (x : Except String EventsDb) : EventsDb :=
  match x with
  | .ok db => db
  | .error _ => ⟨[], [], []⟩

/-- State after saving the old record. -/
def c2db1 : EventsDb := exOkDb (save_event ⟨[], [], []⟩ evC2old)

/-- State after upserting the new record over it. -/
def c2db2 : EventsDb := exOkDb (save_event c2db1 evC2new)

/-- Witness for C2 amended at the concrete pair of saves: the stored row
is exactly the new record, and an unrelated id reads the same as
before. -/
theorem claim_C2_witness :
    get_event c2db2 "e1" = some evC2new ∧ get_event c2db2 "zzz" = get_event c2db1 "zzz" :=
  ⟨(claim_C2_amended c2db1 evC2new c2db2 rfl).1,
   (claim_C2_amended c2db1 evC2new c2db2 rfl).2 "zzz" (by decide)⟩

/-- C3 counterexample: with every strategy raising (first run) or
returning nothing (second run), `scrape` completes with `[]` and the
database — including the `scrape_metadata` table — entirely unchanged: no
`success=false` row with the error and no `success=true, count=0` row is
recorded, contrary to the claim. -/
theorem claim_C3_cex :
    scrape true false (fun _ => StratOutcome.raise "connection failed") [] "mlh"
        ⟨⟨[], [], []⟩, []⟩ ⟨⟨2026, 10, 12⟩, true⟩ "now" =
      Except.ok ([], ⟨⟨[], [], []⟩, []⟩) ∧
    scrape true false (fun _ => StratOutcome.events []) [] "mlh"
        ⟨⟨[], [], []⟩, []⟩ ⟨⟨2026, 10, 12⟩, true⟩ "now" =
      Except.ok ([], ⟨⟨[], [], []⟩, []⟩) ∧
    List.lookup "mlh" (⟨⟨[], [], []⟩, []⟩ : DbState).metadata = Option.none :=
  ⟨rfl, rfl, rfl⟩

/-- C3 amended: whenever the strategy chain produces no events (all
strategies soft-failed or returned nothing) and the cache branch is not
taken, `scrape` neither raises nor records anything: it returns `[]`
with the database state — scrape metadata included — unchanged.  A
metadata row (`success=true` with the saved count and no error message)
is written only on the non-empty path, by `save_events`. -/
theorem claim_C3_amended (force_refresh cacheFresh : Bool) (impl : String → StratOutcome)
    (config : RawData) (short_name : String) (db : DbState) (now : PyNow) (nowIso : String)
    (hcache : (!force_refresh && cacheFresh) = false)
    (hempty :
      (chainGo Option.none ((get_method_sequence config).map (fun n => (n, impl n)))).1 = []) :
    scrape force_refresh cacheFresh impl config short_name db now nowIso =
      Except.ok ([], db) := by
  unfold scrape
  rw [if_neg (by simp [hcache])]
  simp only [hempty, List.isEmpty_nil, if_true]

/-- Witness for C3 amended: every strategy raising on a default config
yields `Except.ok ([], db)` with the empty database unchanged. -/
theorem claim_C3_witness :
    scrape true false (fun _ => StratOutcome.raise "boom") [] "mlh" ⟨⟨[], [], []⟩, []⟩
        ⟨⟨2026, 10, 12⟩, true⟩ "now" = Except.ok ([], ⟨⟨[], [], []⟩, []⟩) :=
  claim_C3_amended true false (fun _ => StratOutcome.raise "boom") [] "mlh"
    ⟨⟨[], [], []⟩, []⟩ ⟨⟨2026, 10, 12⟩, true⟩ "now" rfl rfl

/-- A strategy outcome the chain treats as soft failure: an empty result
list, or a raise. -/
def softFail : StratOutcome → Prop
  | StratOutcome.events evs => evs = []
  | StratOutcome.raise _ => True

/-- The error variable of the strategy loop after a prefix of soft
failures: the message of the last raise, if any. -/
def lastChainError (err0 : Option String) : List (String × StratOutcome) → Option String
  | [] => err0
  | (_, StratOutcome.events _) :: rest => lastChainError err0 rest
  | (_, StratOutcome.raise m) :: rest => lastChainError (some m) rest

theorem chainGo_first_nonempty (err0 : Option String) (pre : List (String × StratOutcome))
    (n : String) (evs : List RawData) (rest : List (String × StratOutcome))
    (hsoft : ∀ p ∈ pre, softFail p.2) (hne : evs ≠ []) :
    chainGo err0 (pre ++ (n, StratOutcome.events evs) :: rest) =
      (evs, lastChainError err0 pre) := by
  induction pre generalizing err0 with
  | nil =>
    simp only [List.nil_append, chainGo, lastChainError]
    rw [if_neg (by simpa using hne)]
  | cons p pre ih =>
    obtain ⟨pn, po⟩ := p
    cases po with
    | events l =>
      have hl : l = [] := hsoft (pn, StratOutcome.events l) (by simp)
      subst hl
      simp only [List.cons_append, chainGo, lastChainError, List.isEmpty_nil, if_true]
      exact ih err0 (fun q hq => hsoft q (List.mem_cons_of_mem _ hq))
    | raise m =>
      simp only [List.cons_append, chainGo, lastChainError]
      exact ih (some m) (fun q hq => hsoft q (List.mem_cons_of_mem _ hq))

theorem pyval_beq_eq (v : PyVal) (s : String) : (v == PyVal.str s) = true ↔ v = PyVal.str s := by
  cases v <;> simp [BEq.beq, PyVal.beq]

/-- C4: the strategy sequence is the fixed order `api?, http, browser`,
with `api` present exactly when the config declares API support
(`method == 'api'` or truthy `api_hints`/`api_config`); and for every
prefix of soft-failing strategies (raise or empty list) followed by a
strategy returning a non-empty list, the chain result is exactly that
list with the last raise's message — independent of every later strategy,
which is therefore never invoked. -/
theorem claim_C4 :
    (∀ config : RawData,
      (get_method_sequence config = ["api", "http", "browser"] ∨
        get_method_sequence config = ["http", "browser"]) ∧
      ("api" ∈ get_method_sequence config ↔
        (dictGet config "method" (PyVal.str "http") = PyVal.str "api" ∨
          (pyOr (dictGetN config "api_hints") (dictGetN config "api_config")).truthy = true))) ∧
    (∀ (err0 : Option String) (pre : List (String × StratOutcome)) (n : String)
        (evs : List RawData) (rest : List (String × StratOutcome)),
      (∀ p ∈ pre, softFail p.2) → evs ≠ [] →
      chainGo err0 (pre ++ (n, StratOutcome.events evs) :: rest) =
        (evs, lastChainError err0 pre)) := by
  constructor
  · intro config
    simp only [get_method_sequence]
    by_cases hc : ((dictGet config "method" (PyVal.str "http") == PyVal.str "api") ||
        (pyOr (dictGetN config "api_hints") (dictGetN config "api_config")).truthy) = true
    · rw [if_pos hc]
      refine ⟨Or.inl rfl, ?_⟩
      simp only [Bool.or_eq_true, pyval_beq_eq] at hc
      simp [hc]
    · rw [if_neg hc]
      refine ⟨Or.inr rfl, ?_⟩
      simp only [Bool.or_eq_true, pyval_beq_eq] at hc
      push_neg at hc
      simp [hc.1, hc.2]
  · exact fun err0 pre n evs rest h1 h2 => chainGo_first_nonempty err0 pre n evs rest h1 h2

/-- Witness for C4 at a concrete chain: `api` raises, `http` returns
empty, `browser` returns one payload — the chain result is exactly that
payload with the `api` error, and a fourth strategy after `browser` does
not affect the outcome. -/
theorem claim_C4_witness :
    chainGo Option.none
        ([("api", StratOutcome.raise "api down"), ("http", StratOutcome.events [])] ++
          ("browser", StratOutcome.events [[("title", PyVal.str "T")]]) ::
            [("later", StratOutcome.raise "never invoked")]) =
      ([[("title", PyVal.str "T")]], some "api down") :=
  claim_C4.2 Option.none
    [("api", StratOutcome.raise "api down"), ("http", StratOutcome.events [])]
    "browser" [[("title", PyVal.str "T")]] [("later", StratOutcome.raise "never invoked")]
    (by
      intro p hp
      rcases List.mem_cons.mp hp with rfl | hp2
      · trivial
      · rcases List.mem_cons.mp hp2 with rfl | h
        · rfl
        · cases h)
    (by intro h; exact List.noConfusion h)


theorem lookup_map_replace_self {α : Type} (d : List (String × α)) (k : String) (v : α)
    (h : d.any (fun q => q.1 == k) = true) :
    List.lookup k (d.map (fun q => if q.1 == k then (k, v) else q)) = some v := by
  induction d with
  | nil => simp at h
  | cons p rest ih =>
    obtain ⟨p1, p2⟩ := p
    simp only [List.map_cons]
    by_cases hp : p1 = k
    · subst hp
      simp only [beq_self_eq_true, if_true, List.lookup_cons]
    · have hb : (p1 == k) = false := beq_eq_false_iff_ne.mpr hp
      have hb' : (k == p1) = false := beq_eq_false_iff_ne.mpr (Ne.symm hp)
      simp only [List.any_cons, hb, Bool.false_or] at h
      rw [if_neg (by simp [hb])]
      simp only [List.lookup_cons, hb']
      exact ih h

theorem lookup_map_replace {α : Type} (d : List (String × α)) (k k' : String) (v : α)
    (h : k' ≠ k) :
    List.lookup k' (d.map (fun q => if q.1 == k then (k, v) else q)) = List.lookup k' d := by
  have hkk : (k' == k) = false := beq_eq_false_iff_ne.mpr h
  induction d with
  | nil => rfl
  | cons p rest ih =>
    obtain ⟨p1, p2⟩ := p
    simp only [List.map_cons]
    by_cases hp : (p1 == k) = true
    · have hpk : p1 = k := by simpa using hp
      have hck : (k' == p1) = false := by
        rw [hpk]
        exact hkk
      rw [if_pos hp]
      simp only [List.lookup_cons, hkk, hck]
      exact ih
    · rw [if_neg hp]
      by_cases hc : (k' == p1) = true
      · simp only [List.lookup_cons, hc]
      · have hc' : (k' == p1) = false := by simpa using hc
        simp only [List.lookup_cons, hc']
        exact ih

theorem lookup_eq_none_of_not_any {α : Type} (d : List (String × α)) (k : String)
    (h : d.any (fun q => q.1 == k) = false) : List.lookup k d = Option.none := by
  induction d with
  | nil => rfl
  | cons p rest ih =>
    obtain ⟨p1, p2⟩ := p
    simp only [List.any_cons, Bool.or_eq_false_iff] at h
    have hb : (k == p1) = false := by
      rcases h with ⟨h1, _⟩
      exact beq_eq_false_iff_ne.mpr (Ne.symm (by simpa using h1))
    simp [List.lookup, hb, ih h.2]

theorem lookup_dictInsert_self {α : Type} (d : List (String × α)) (k : String) (v : α) :
    List.lookup k (dictInsert d k v) = some v := by
  unfold dictInsert
  split
  · exact lookup_map_replace_self d k v (by assumption)
  · rename_i hany
    have hnone : List.lookup k d = Option.none :=
      lookup_eq_none_of_not_any d k (Bool.eq_false_iff.mpr hany)
    rw [List.lookup_append]
    simp [hnone, List.lookup]

theorem lookup_dictInsert_ne {α : Type} (d : List (String × α)) (k k' : String) (v : α)
    (h : k' ≠ k) : List.lookup k' (dictInsert d k v) = List.lookup k' d := by
  unfold dictInsert
  split
  · exact lookup_map_replace d k k' v h
  · rw [List.lookup_append]
    have h2 : List.lookup k' [(k, v)] = Option.none := by
      simp [List.lookup, beq_eq_false_iff_ne.mpr h]
    simp [h2]

theorem lookup_scrape_all_foldl (outcome : String → Except String (List HackathonEvent))
    (keys : List String) (acc : List (String × Nat)) (k : String) :
    List.lookup k
        (keys.foldl (fun results k' => dictInsert results k' (scrape_site outcome k')) acc) =
      if k ∈ keys then some (scrape_site outcome k) else List.lookup k acc := by
  induction keys generalizing acc with
  | nil => simp
  | cons k0 rest ih =>
    simp only [List.foldl_cons]
    rw [ih]
    by_cases hk : k ∈ rest
    · simp [hk, List.mem_cons]
    · by_cases hk0 : k = k0
      · subst hk0
        simp [hk, lookup_dictInsert_self]
      · simp [hk, hk0, lookup_dictInsert_ne acc k0 k _ hk0]

/-- C5: the batch scrape always completes with a per-source outcome map
covering exactly the requested sources — the outcome of each requested
source is its own `scrape_site` result, independent of every other
source — and a source whose scrape raises has its exception caught and
recorded as outcome `0`. -/
theorem claim_C5 :
    (∀ (outcome : String → Except String (List HackathonEvent)) (site_keys : List String)
        (k : String),
      List.lookup k (scrape_all outcome site_keys) =
        if k ∈ site_keys then some (scrape_site outcome k) else Option.none) ∧
    (∀ (outcome : String → Except String (List HackathonEvent)) (k msg : String),
      outcome k = Except.error msg → scrape_site outcome k = 0) := by
  constructor
  · intro outcome keys k
    unfold scrape_all
    rw [lookup_scrape_all_foldl]
    rfl
  · intro outcome k msg h
    unfold scrape_site
    rw [h]

/-- Witness for C5: with sources `[A, B, C]` where every scrape raises at
`B`, the batch records outcome `0` for `B` (and still covers it). -/
theorem claim_C5_witness :
    scrape_site (fun _ => Except.error "dead") "B" = 0 ∧
    List.lookup "B" (scrape_all (fun _ => Except.error "dead") ["A", "B", "C"]) = some 0 := by
  refine ⟨claim_C5.2 (fun _ => Except.error "dead") "B" "dead" rfl, ?_⟩
  have h := claim_C5.1 (fun _ => Except.error "dead") ["A", "B", "C"] "B"
  simpa using h
